import Mathlib

/-!
Verification of the cdk-api-client generator pipeline against its
natural-language specification.

The TypeScript sources are shallowly embedded: pure string manipulation is
translated to Lean functions on `String`/`List Char`, the filesystem walked by
the interface resolver is an explicit list of directories and files, stateful
phases pass their state explicitly, and fallible phases return `Except`.
JavaScript-specific behaviour (truthiness, `String.prototype.includes`,
`substring`, the `/{([a-zA-Z0-9_]+)}/g` path-parameter regex) is embedded with
the same observable semantics on the values that actually occur.

The VTL template generator that the test snapshots exercise is not present in
the sources (only two superseded revisions, its tests and its snapshots are);
the definitions for it below are marked `Modelled from the spec:` and follow
the specification text.
-/

/-! ## Character-list helpers (JS string primitives) -/

/-- Boolean prefix test on character lists; used to embed
`String.prototype.startsWith` and as the kernel of the substring test. -/
def charsPrefixCheck : List Char → List Char → Bool
  | [], _ => true
  | _ :: _, [] => false
  | a :: as, b :: bs => a == b && charsPrefixCheck as bs

/-- Boolean suffix test on character lists (JS `String.prototype.endsWith`). -/
def charsSuffixCheck (pat l : List Char) : Bool :=
  charsPrefixCheck pat.reverse l.reverse

/-- Substring occurrence test on character lists: `pat` occurs somewhere in
`l`.  Embeds `String.prototype.includes`. -/
def hasSubstrAux (pat : List Char) : List Char → Bool
  | [] => charsPrefixCheck pat []
  | c :: rest => charsPrefixCheck pat (c :: rest) || hasSubstrAux pat rest

/-- JS `s.includes(pat)`. -/
def jsIncludes (s pat : String) : Bool :=
  hasSubstrAux pat.data s.data

/-- JS `s.charAt(0).toUpperCase() + s.slice(1)` (the generator's title-casing
of project and endpoint names). -/
def titleCase (s : String) : String :=
  match s.data with
  | [] => ""
  | c :: rest => String.mk (c.toUpper :: rest)

/-- JS truthiness of an optional string combined with one excluded literal:
`x && x !== bad` (the empty string is falsy). -/
def jsStrTruthyNe (i : Option String) (bad : String) : Bool :=
  match i with
  | none => false
  | some s => !(s == "") && !(s == bad)

/-- JS truthiness of an optional string: `x` alone (`undefined` and `""` are
falsy). -/
def jsOptStrTruthy : Option String → Bool
  | none => false
  | some s => !(s == "")

/-! ## Shared data model -/

/-- HTTP methods accepted by the endpoint declarations. -/
inductive HttpMethod where
  | GET
  | POST
  | PUT
  | DELETE
deriving DecidableEq, Repr

/-- Modelled from the spec: the two key-value store read actions of a
store-backed endpoint (`action ∈ {GetItem, Query}`). -/
inductive DynamoAction where
  | getItemAct
  | queryAct
deriving DecidableEq, Repr

/-- Modelled from the spec: the store-backed variant's configuration record
(§3 StoreBacked).  The concrete store generator consuming it is absent from
the sources (only superseded revisions and its snapshot tests remain). -/
structure StoreConfig where
  action : DynamoAction
  tableName : String
  partitionKeyTemplate : String
  sortKeyTemplate : Option String := none
  indexName : Option String := none
  keyConditionExpression : Option String := none
  defaultLimit : Nat := 0
  requestTemplateOverride : Option String := none
  responseTemplateOverride : Option String := none
deriving DecidableEq, Repr

/-- One endpoint record as produced by the loader and consumed by the
generators (`path`, `method`, optional input/output type names, optional
handler entry, optional store configuration). -/
structure Endpoint where
  path : String
  method : HttpMethod
  input : Option String := none
  output : Option String := none
  entry : Option String := none
  store : Option StoreConfig := none
deriving DecidableEq, Repr

/-! ## Endpoint loader (`importEndpoints`)

The TypeScript-AST structural pass and the regex textual fallback are embedded
by the lists of endpoint records each tier extracts from the declaration
module; the selection logic between the tiers, the unreadable-module failure
and the return value (always a JS object, never `null`/`undefined`) follow the
source. -/

/-- A declaration module as seen by the loader: whether the source file can be
found, and the records each extraction tier yields. -/
structure DeclModule where
  readable : Bool
  structuralEndpoints : List (String × Endpoint)
  textualEndpoints : List (String × Endpoint)
deriving DecidableEq, Repr

/-- A JavaScript value as tested by `if (!x)`: only the shapes `importEndpoints`
can hand to its caller are represented. -/
inductive JsValue (α : Type) where
  | jsNull
  | jsUndefined
  | jsObject (val : α)
deriving DecidableEq, Repr

/-- JS truthiness: `null` and `undefined` are falsy, every object (the empty
object included) is truthy. -/
def JsValue.truthy : JsValue α → Bool
  | .jsNull => false
  | .jsUndefined => false
  | .jsObject _ => true

/-- The object payload, defaulting when the value is not an object. -/
def JsValue.payloadD (d : α) : JsValue α → α
  | .jsObject v => v
  | _ => d

/-- `importEndpoints`: throws when the source file cannot be found; otherwise
returns the structural records, falling back to the whole-module textual
extraction when the structural pass yields zero records.  The result is always
a JS object (the accumulator is initialised to `{}`). -/
def importEndpoints (m : DeclModule) : Except String (JsValue (List (String × Endpoint))) :=
  if !m.readable then
    Except.error "Could not find source file"
  else if m.structuralEndpoints.length = 0 then
    Except.ok (JsValue.jsObject m.textualEndpoints)
  else
    Except.ok (JsValue.jsObject m.structuralEndpoints)

/-! ## Interface resolver (`findAndAddInterfaceFile`)

The filesystem is an explicit list of search roots; each root records whether
`fs.existsSync` reports it and the directory listing in `fs.readdirSync`
order.  The control flow (per-root: filename variants first, then the
full-text declaration scan, early return on the first hit) is translated from
the source. -/

/-- One file of a search root: its name and its full text. -/
structure SrcFile where
  name : String
  content : String
deriving DecidableEq, Repr

/-- One search root: its path, whether `fs.existsSync` reports it, and its
listing in `fs.readdirSync` order. -/
structure Dir where
  path : String
  present : Bool
  files : List SrcFile
deriving DecidableEq, Repr

/-- JS `s.toLowerCase()` (character-wise lowering). -/
def jsToLower (s : String) : String :=
  String.mk (s.data.map Char.toLower)

/-- The ordered filename variants the resolver probes for a type name. -/
def fileVariants (t : String) : List String :=
  [t ++ ".ts", jsToLower t ++ ".ts", t ++ "Interface.ts", "I" ++ t ++ ".ts", t ++ "Type.ts"]

/-- The inner loop over filename variants in one root: return the first
variant that names an existing file there. -/
def findVariantLoop (dpath : String) (files : List SrcFile) : List String → Option String
  | [] => none
  | v :: vs =>
    if files.any fun f => f.name == v then some (dpath ++ "/" ++ v)
    else findVariantLoop dpath files vs

/-- The inner full-text scan of one root: skip non-`.ts` names, return the
first file whose content contains one of the four declaration headers for
the type name. -/
def scanFilesLoop (t dpath : String) : List SrcFile → Option String
  | [] => none
  | f :: fs =>
    if !(charsSuffixCheck ".ts".data f.name.data) then scanFilesLoop t dpath fs
    else if jsIncludes f.content ("interface " ++ t) ||
            jsIncludes f.content ("type " ++ t) ||
            jsIncludes f.content ("export interface " ++ t) ||
            jsIncludes f.content ("export type " ++ t) then
      some (dpath ++ "/" ++ f.name)
    else scanFilesLoop t dpath fs

/-- `findAndAddInterfaceFile`: walk the search roots in order; in each present
root first probe the filename variants, then full-text scan that root's
files; the first hit anywhere wins. -/
def findAndAddInterfaceFile (t : String) : List Dir → Option String
  | [] => none
  | d :: ds =>
    if !d.present then findAndAddInterfaceFile t ds
    else
      match findVariantLoop d.path d.files (fileVariants t) with
      | some p => some p
      | none =>
        match scanFilesLoop t d.path d.files with
        | some p => some p
        | none => findAndAddInterfaceFile t ds

/-- The resolution of one root, used to characterise the source's search
order: filename variants first, then the text scan of the same root. -/
def dirResolve (t : String) (d : Dir) : Option String :=
  match findVariantLoop d.path d.files (fileVariants t) with
  | some p => some p
  | none => scanFilesLoop t d.path d.files

/-- The per-root search order the code actually implements: roots in order,
each probed completely (variants, then text scan) before the next root. -/
def perRootResolve (t : String) (dirs : List Dir) : Option String :=
  dirs.findSome? fun d => if d.present then dirResolve t d else none

/-- Modelled from the spec: the two-phase search order §4.2 describes — all
direct filename variants across every root first, and the full-text scan of
the roots only if no filename variant matched in any root.  Stated for
comparison with `findAndAddInterfaceFile`. -/
def resolveSpecTwoPhase (t : String) (dirs : List Dir) : Option String :=
  match dirs.findSome? (fun d => if d.present then findVariantLoop d.path d.files (fileVariants t) else none) with
  | some p => some p
  | none => dirs.findSome? fun d => if d.present then scanFilesLoop t d.path d.files else none

/-! ## Client generator (`generateClientCode`)

The emitted TypeScript is represented structurally: the exported
parameter-type declarations with their ordered fields, the single client
class with its constructor and one method declaration per endpoint, and the
list of named imports.  Field order, names and type texts follow the source's string
emission. -/

/-- One character class of the path-parameter regex `[a-zA-Z0-9_]`. -/
def isWordChar (c : Char) : Bool :=
  c.isAlpha || c.isDigit || c == '_'

/-- Global-match scanner for `/\x7b([a-zA-Z0-9_]+)\x7d/g`: the candidate state
holds the reversed identifier characters read since the last unmatched
opening brace. -/
def scanPathParams : Option (List Char) → List Char → List String
  | _, [] => []
  | none, c :: rest =>
    if c == '{' then scanPathParams (some []) rest
    else scanPathParams none rest
  | some acc, c :: rest =>
    if c == '}' then
      if acc.isEmpty then scanPathParams none rest
      else String.mk acc.reverse :: scanPathParams none rest
    else if c == '{' then scanPathParams (some []) rest
    else if isWordChar c then scanPathParams (some (c :: acc)) rest
    else scanPathParams none rest

/-- The `\x7bparam\x7d` segment names of a path, in order of occurrence. -/
def pathParamNames (path : String) : List String :=
  scanPathParams none path.data

/-- One field of an emitted parameter type: its name, its type text, and
whether it is declared optional (`?`). -/
structure ParamField where
  name : String
  typeText : String
  optional : Bool
deriving DecidableEq, Repr

/-- One exported per-endpoint parameter type. -/
structure ParamsTypeDecl where
  typeName : String
  fields : List ParamField
deriving DecidableEq, Repr

/-- The type text used for a `body`/`query` field
(`typeof input === "string" ? input : "any"`). -/
def jsTypeText : Option String → String
  | some s => s
  | none => "any"

/-- The parameter type emitted for one endpoint: one required
`string | number` field per `\x7bparam\x7d` path segment, then a required
`body` field when the method is not GET and a truthy input type other than
`"never"` is declared, otherwise an optional `query` field when the method is
GET under the same input condition. -/
def genParamsType (name : String) (e : Endpoint) : ParamsTypeDecl :=
  let pathFields := (pathParamNames e.path).map fun p => ParamField.mk p "string | number" false
  let rest :=
    if e.method != HttpMethod.GET && jsStrTruthyNe e.input "never" then
      [ParamField.mk "body" (jsTypeText e.input) false]
    else if e.method == HttpMethod.GET && jsStrTruthyNe e.input "never" then
      [ParamField.mk "query" (jsTypeText e.input) true]
    else []
  ParamsTypeDecl.mk (titleCase name ++ "Params") (pathFields ++ rest)

/-- Append preserving first insertion (the `Set<string>` of type imports). -/
def addUnique (l : List String) (s : String) : List String :=
  if s ∈ l then l else l ++ [s]

/-- The imported type names collected from the endpoints: per endpoint the
output type (truthy, not `"any"`, not `"void"`) then the input type (truthy,
not `"any"`, not `"never"`), deduplicated in first-insertion order. -/
def typeImports (eps : List (String × Endpoint)) : List String :=
  eps.foldl
    (fun acc pr =>
      let acc1 :=
        if jsStrTruthyNe pr.2.output "any" && jsStrTruthyNe pr.2.output "void" then
          addUnique acc (jsTypeText pr.2.output)
        else acc
      if jsStrTruthyNe pr.2.input "any" && jsStrTruthyNe pr.2.input "never" then
        addUnique acc1 (jsTypeText pr.2.input)
      else acc1)
    []

/-- One method declaration of the emitted class: the name, the parameter list
(name and optional type annotation) and the declared return type text. -/
structure MethodDecl where
  name : String
  params : List (String × Option String)
  returnType : Option String
deriving DecidableEq, Repr

/-- One class declaration of the emitted client source. -/
structure ClassDecl where
  name : String
  hasCtor : Bool
  methods : List MethodDecl
deriving DecidableEq, Repr

/-- One named import of the emitted client source. -/
structure TsImport where
  typeName : String
  importPath : String
deriving DecidableEq, Repr

/-- The emitted client source, structurally. -/
structure ClientSource where
  imports : List TsImport
  paramTypes : List ParamsTypeDecl
  classes : List ClassDecl
deriving DecidableEq, Repr

/-- The return-type text the client method declares for an endpoint
(`output && output !== "any" ? output : "any"`, `Promise` added by the
method signature). -/
def clientOutputTypeText (e : Endpoint) : String :=
  if jsStrTruthyNe e.output "any" then jsTypeText e.output else "any"

/-- `generateClientCode`, structurally: imports for the collected types, one
exported parameter type per endpoint, and one class
`<titleCase projectName>ApiClient` with a constructor and one async method
per endpoint taking `params` of the endpoint's parameter type and returning
`Promise<outputType>`. -/
def generateClientSource (eps : List (String × Endpoint)) (projectName : String) : ClientSource :=
  { imports := (typeImports eps).map fun t => TsImport.mk t ("./interfaces/" ++ t),
    paramTypes := eps.map fun pr => genParamsType pr.1 pr.2,
    classes := [{ name := titleCase projectName ++ "ApiClient",
                  hasCtor := true,
                  methods := eps.map fun pr =>
                    { name := pr.1,
                      params := [("params", some (titleCase pr.1 ++ "Params"))],
                      returnType := some ("Promise<" ++ clientOutputTypeText pr.2 ++ ">") } }] }

/-! ## Mock generator (`parseApiClientFile`, `generateApiClientMocks`)

`parseApiClientFile` re-parses the generated client; the AST visit is
embedded over the structural client source.  `generateApiClientMocks` is the
state transformation on the output directory (index file content and mock
source file). -/

/-- One discovered client method: name, first-parameter type text, return
type text with a wrapping `Promise<...>` stripped. -/
structure EndpointMock where
  name : String
  paramType : String
  returnType : String
deriving DecidableEq, Repr

/-- JS `rt.startsWith("Promise<") && rt.endsWith(">") ?
rt.substring(8, rt.length - 1) : rt`. -/
def stripPromise (rt : String) : String :=
  if charsPrefixCheck "Promise<".data rt.data && charsSuffixCheck ">".data rt.data then
    String.mk ((rt.data.take (rt.data.length - 1)).drop 8)
  else rt

/-- The mock entry recorded for one method member: skip `constructor`, take
the first parameter's declared type (defaulting to `any`), and the return
type with the `Promise` wrapper stripped (defaulting to `any`). -/
def mockOfMethod (m : MethodDecl) : Option EndpointMock :=
  if m.name == "constructor" then none
  else
    some
      { name := m.name,
        paramType :=
          match m.params with
          | (_, some t) :: _ => t
          | _ => "any",
        returnType :=
          match m.returnType with
          | some rt => stripPromise rt
          | none => "any" }

/-- `parseApiClientFile`: collect every named import, and the mock entries of
every method member of a class named `<titleCaseProjectName>ApiClient`. -/
def parseApiClientFile (titleCaseProjectName : String) (src : ClientSource) :
    List EndpointMock × List TsImport :=
  (src.classes.foldl
      (fun acc cls =>
        if cls.name == titleCaseProjectName ++ "ApiClient" then
          acc ++ cls.methods.filterMap mockOfMethod
        else acc)
      [],
   src.imports)

/-- Modelled from the spec: the mock client source text.  The function
`generateMockClientCode` itself is absent from the sources (only its call
site is); per §4.4 it emits one mock entry per discovered method, so any
deterministic rendering of its inputs represents it for the claims at
issue. -/
def generateMockClientCode (eps : List EndpointMock) (imports : List TsImport)
    (titleCaseProjectName : String) : String :=
  titleCaseProjectName ++ "ApiClientMock:" ++
    String.intercalate "," (eps.map fun m => m.name ++ ":" ++ m.paramType ++ ":" ++ m.returnType) ++
    ";imports:" ++ String.intercalate "," (imports.map fun i => i.typeName)

/-- The export line appended for the mock module. -/
def mockExportLine : String := "export * from \x27./apiClientMock\x27;\n"

/-- The index-file update: append the mock export only when the content does
not already mention `apiClientMock`. -/
def updateIndexForMock (indexContent : String) : String :=
  if jsIncludes indexContent "apiClientMock" then indexContent
  else indexContent ++ mockExportLine

/-- The mutable output-directory state the mock generator touches: the index
file's content and the mock source file (if written). -/
structure GenState where
  indexContent : String
  mockFile : Option String
deriving DecidableEq, Repr

/-- `generateApiClientMocks`: parse the generated client source; when zero
methods are discovered, warn and return without touching any file; otherwise
write the mock source and update the index file. -/
def generateApiClientMocks (projectName : String) (clientSrc : ClientSource)
    (st : GenState) : GenState :=
  let parsed := parseApiClientFile (titleCase projectName) clientSrc
  if parsed.1.length = 0 then st
  else
    { indexContent := updateIndexForMock st.indexContent,
      mockFile := some (generateMockClientCode parsed.1 parsed.2 (titleCase projectName)) }

/-! ## Template generator

The template generator the snapshot tests exercise is absent from the
sources (two superseded revisions, the tests and the snapshots remain), so
this whole section is modelled from the specification (§4.5, §7, §8). -/

/-- Modelled from the spec: the classification of a resolved property's type
used to choose a conditional emission directive (string/number/boolean). -/
inductive PropKind where
  | stringKind
  | numberKind
  | booleanKind
deriving DecidableEq, Repr

/-- Modelled from the spec: one property of a resolved type declaration, in
source order. -/
structure TypeProp where
  name : String
  kind : PropKind
deriving DecidableEq, Repr

/-- Modelled from the spec: a resolved type declaration — its name and its
ordered properties. -/
structure TypeDecl where
  name : String
  props : List TypeProp
deriving DecidableEq, Repr

/-- Key-attribute detection: exact name `pk` or `sk`, or a case-sensitive
`gsi` prefix. -/
def isKeyAttr (n : String) : Bool :=
  n == "pk" || n == "sk" || charsPrefixCheck "gsi".data n.data

/-- Modelled from the spec: one clause of a response template — a conditional
field emission chosen by the classified kind, or an unconditional key
attribute emission; `sep` records whether a separator token follows the
clause. -/
inductive VtlClause where
  | conditional (field : String) (kind : PropKind) (sep : Bool)
  | keyUncond (field : String) (sep : Bool)
deriving DecidableEq, Repr

/-- The separator flag of a clause. -/
def VtlClause.sepOf : VtlClause → Bool
  | .conditional _ _ s => s
  | .keyUncond _ s => s

/-- The field and kind of a conditional clause. -/
def VtlClause.condOf : VtlClause → Option (String × PropKind)
  | .conditional f k _ => some (f, k)
  | .keyUncond _ _ => none

/-- The field of an unconditional key clause. -/
def VtlClause.keyNameOf : VtlClause → Option String
  | .conditional _ _ _ => none
  | .keyUncond f _ => some f

/-- Whether a clause is an unconditional key clause. -/
def VtlClause.isKeyClause : VtlClause → Bool
  | .conditional _ _ _ => false
  | .keyUncond _ _ => true

/-- Whether a clause is the conditional emission of the given field with the
given classified kind. -/
def VtlClause.isCondFor (c : VtlClause) (nm : String) (kd : PropKind) : Bool :=
  match c with
  | .conditional f k _ => f == nm && k == kd
  | .keyUncond _ _ => false

/-- Whether a clause is the unconditional key emission of the given field. -/
def VtlClause.isKeyFor (c : VtlClause) (nm : String) : Bool :=
  match c with
  | .conditional _ _ _ => false
  | .keyUncond f _ => f == nm

/-- The separator discipline of a clause list: a clause carries the separator
exactly when a later clause follows (no trailing separator). -/
def sepFlagsOk (l : List VtlClause) : Prop :=
  ∀ i (h : i < l.length), VtlClause.sepOf (l.get ⟨i, h⟩) = true ↔ i + 1 < l.length

/-- Modelled from the spec: emit the unconditional key-attribute clauses in
declared order, a separator only when a later key follows. -/
def emitKeyClauses : List TypeProp → List VtlClause
  | [] => []
  | k :: ks => VtlClause.keyUncond k.name (!ks.isEmpty) :: emitKeyClauses ks

/-- Modelled from the spec: emit the clause list — every non-key property in
source order as one conditional clause, then every key attribute in declared
order as one unconditional clause, a separator only when a later field
follows. -/
def emitClauses : List TypeProp → List TypeProp → List VtlClause
  | [], ks => emitKeyClauses ks
  | p :: ps, ks => VtlClause.conditional p.name p.kind (!ps.isEmpty || !ks.isEmpty) :: emitClauses ps ks

/-- Modelled from the spec: the response-template clause list of a resolved
type — non-key properties conditionally, key attributes unconditionally
immediately after. -/
def generateResponseClauses (props : List TypeProp) : List VtlClause :=
  emitClauses (props.filter fun p => !isKeyAttr p.name) (props.filter fun p => isKeyAttr p.name)

/-- The directive name of a classified kind. -/
def kindDirective : PropKind → String
  | .stringKind => "$outputConditionalString"
  | .numberKind => "$outputConditionalNumber"
  | .booleanKind => "$outputConditionalBoolean"

/-- A textual rendering of one response clause. -/
def renderClause : VtlClause → String
  | .conditional f k _ => "#set($key=\"" ++ f ++ "\") " ++ kindDirective k ++ "\n"
  | .keyUncond f s => "\"" ++ f ++ "\": \"$item." ++ f ++ ".S\"" ++ (if s then "," else "") ++ "\n"

/-- A textual rendering of a clause list. -/
def renderClauses (cs : List VtlClause) : String :=
  String.join (cs.map renderClause)

/-- Modelled from the spec: the generic fallback template used when the
referenced type is unresolved — no field-aware transformation, the store's
raw result passed through unchanged. -/
def genericRequestFallback : String := "$input.json(\x27$\x27)"

/-- Modelled from the spec: the generic fallback response template — no
field-aware transformation, the store's raw result passed through
unchanged. -/
def genericResponseFallback : String := "$input.json(\x27$\x27)"

/-- The sort-key fragment of a direct key lookup. -/
def skPart : Option String → String
  | some sk => ",\"sk\":\x7b\"S\":\"" ++ sk ++ "\"\x7d"
  | none => ""

/-- Modelled from the spec: the GetItem request template — a direct key
lookup with `TableName` and a `Key` object built from the partition-key (and
sort-key, if present) literal templates. -/
def getItemRequestTemplate (cfg : StoreConfig) : String :=
  "\x7b\"TableName\":\"" ++ cfg.tableName ++ "\",\"Key\":\x7b\"pk\":\x7b\"S\":\"" ++
    cfg.partitionKeyTemplate ++ "\"\x7d" ++ skPart cfg.sortKeyTemplate ++ "\x7d\x7d"

/-- Modelled from the spec: the Query request template — `TableName`,
optional `IndexName`, the key condition, and the pagination directives
(limit with default fallback, cursor from query string or body). -/
def queryRequestTemplate (cfg : StoreConfig) : String :=
  "\x7b" ++
    "#set($limit = $input.params(\x27limit\x27))" ++
    "#if($limit == \"\")#set($limit = " ++ toString cfg.defaultLimit ++ ")#end" ++
    "\"Limit\": $limit," ++
    "#if($input.params(\x27LastEvaluatedKey\x27) != \"\")" ++
    "\"ExclusiveStartKey\": $util.base64Decode($util.urlDecode($input.params(\x27LastEvaluatedKey\x27)))," ++
    "#elseif($context.httpMethod == \"POST\" || $context.httpMethod == \"PUT\")" ++
    "\"ExclusiveStartKey\": $util.base64Decode($util.urlDecode($inputRoot.LastEvaluatedKey))," ++
    "#end" ++
    (match cfg.indexName with
     | some ix => "\"IndexName\":\"" ++ ix ++ "\","
     | none => "") ++
    "\"KeyConditionExpression\":\"" ++
    (match cfg.keyConditionExpression with
     | some k => k
     | none => "") ++
    "\",\"TableName\":\"" ++ cfg.tableName ++ "\"\x7d"

/-- Whether the referenced output type resolves against the copied type
declarations. -/
def typeResolves (outputType : Option String) (types : List TypeDecl) : Bool :=
  match outputType with
  | some t => (types.find? fun d => d.name == t).isSome
  | none => false

/-- Modelled from the spec: the request template of one store-backed
endpoint — the override verbatim when supplied, the generic fallback when
the referenced type is unresolved, otherwise the action's template. -/
def storeRequestTemplate (cfg : StoreConfig) (outputType : Option String)
    (types : List TypeDecl) : String :=
  match cfg.requestTemplateOverride with
  | some o => o
  | none =>
    if typeResolves outputType types then
      match cfg.action with
      | .getItemAct => getItemRequestTemplate cfg
      | .queryAct => queryRequestTemplate cfg
    else genericRequestFallback

/-- Modelled from the spec: the response template of one store-backed
endpoint — the override verbatim when supplied, the generic fallback when
the referenced type is unresolved, otherwise the rendered clause list of the
resolved type. -/
def storeResponseTemplate (cfg : StoreConfig) (outputType : Option String)
    (types : List TypeDecl) : String :=
  match cfg.responseTemplateOverride with
  | some o => o
  | none =>
    match outputType with
    | some t =>
      match types.find? (fun d => d.name == t) with
      | some decl => renderClauses (generateResponseClauses decl.props)
      | none => genericResponseFallback
    | none => genericResponseFallback

/-- The invalid store configuration of §7: a GetItem action combined with a
truthy (non-empty) index name. -/
def invalidGetItemIndex (cfg : StoreConfig) : Bool :=
  cfg.action == DynamoAction.getItemAct && jsOptStrTruthy cfg.indexName

/-- Modelled from the spec: the template-generation run — store-backed
endpoints only, two artifacts per endpoint, and a fatal validation error for
a GetItem endpoint declaring an index name, which aborts the whole run with
no artifacts (§7 InvalidStoreConfig, §8). -/
def generateVtlTemplates (types : List TypeDecl) :
    List (String × Endpoint) → Except String (List (String × String))
  | [] => Except.ok []
  | (n, e) :: rest =>
    match e.store with
    | none => generateVtlTemplates types rest
    | some cfg =>
      if invalidGetItemIndex cfg then
        Except.error ("InvalidStoreConfig: GetItem endpoint " ++ n ++ " declares an indexName")
      else
        match generateVtlTemplates types rest with
        | Except.error msg => Except.error msg
        | Except.ok tail =>
          Except.ok ((n ++ "-request.vtl", storeRequestTemplate cfg e.output types) ::
                     (n ++ "-response.vtl", storeResponseTemplate cfg e.output types) :: tail)

/-! ## The generation run (`generateApiClient` and `main`) -/

/-- The interface type names one endpoint references, in scan order (output
first, then input, with the source's truthiness and exclusion checks). -/
def interfaceTypeNamesOf (e : Endpoint) : List String :=
  (if jsStrTruthyNe e.output "any" && jsStrTruthyNe e.output "void" then [jsTypeText e.output]
   else []) ++
  (if jsStrTruthyNe e.input "never" && jsStrTruthyNe e.input "any" then [jsTypeText e.input]
   else [])

/-- `copyInterfaceFiles`: resolve every referenced type, collecting the found
source paths as a set in insertion order; unresolved types only produce a
warning. -/
def copiedInterfacePaths (eps : List (String × Endpoint)) (dirs : List Dir) : List String :=
  eps.foldl
    (fun acc pr =>
      (interfaceTypeNamesOf pr.2).foldl
        (fun acc2 t =>
          match findAndAddInterfaceFile t dirs with
          | some p => addUnique acc2 p
          | none => acc2)
        acc)
    []

/-- The initial content of the generated index file. -/
def initialIndexContent : String := "\nexport * from \x27./apiClient\x27;\n"

/-- `generateApiClient`: load the endpoints, apply the (ineffective) JS
truthiness guard, then write the client, the copied interfaces, the index,
the manifest files, the templates (failures caught and logged) and the mocks.
The result lists the artifacts written. -/
def generateApiClientRun (m : DeclModule) (projectName : String) (dirs : List Dir)
    (types : List TypeDecl) : Except String (List String) :=
  match importEndpoints m with
  | Except.error msg => Except.error msg
  | Except.ok endpointsVal =>
    if !endpointsVal.truthy then Except.error ("Failed to load endpoints")
    else
      let eps := endpointsVal.payloadD []
      let clientSrc := generateClientSource eps projectName
      let copied := copiedInterfacePaths eps dirs
      let vtlArtifacts :=
        match generateVtlTemplates types eps with
        | Except.ok l => l.map fun a => a.1
        | Except.error _ => []
      let st := generateApiClientMocks projectName clientSrc
        (GenState.mk initialIndexContent none)
      Except.ok
        (["apiClient.ts"] ++ copied ++ ["index.ts", "package.json", "README.md"] ++
          vtlArtifacts ++ [".gitignore", "endpointEntries.json", "jest.setup.ts"] ++
          (match st.mockFile with
           | some _ => ["apiClientMock.ts"]
           | none => []))

/-- The process exit code of `main`: 1 when `generateApiClient` throws, 0
otherwise. -/
def mainExitCode (m : DeclModule) (projectName : String) (dirs : List Dir)
    (types : List TypeDecl) : Nat :=
  match generateApiClientRun m projectName dirs types with
  | Except.ok _ => 0
  | Except.error _ => 1

/-! ## Concrete inputs used by the claim witnesses and counterexamples -/

/-- The failing input for the loader claim: a readable declaration module in
which both extraction tiers yield zero endpoint records. -/
def emptyDeclModule : DeclModule := DeclModule.mk true [] []

/-- The first root of the resolver counterexample: no filename variant of
`Foo`, but a file whose text contains the declaration header. -/
def c5FirstRoot : Dir :=
  Dir.mk "root1" true [SrcFile.mk "Bar.ts" "export interface Foo \x7b\x7d"]

/-- The second root of the resolver counterexample: a direct filename-variant
match for `Foo`. -/
def c5SecondRoot : Dir :=
  Dir.mk "root2" true [SrcFile.mk "Foo.ts" "export interface Foo \x7b\x7d"]

/-- The invalid store configuration of the C3 witness: GetItem combined with
a non-empty index name. -/
def c3BadConfig : StoreConfig :=
  StoreConfig.mk DynamoAction.getItemAct "T" "PK#1" (some "ITEM") (some "gsi1") none 0 none none

/-- The offending endpoint of the C3 witness. -/
def c3BadEndpoint : Endpoint :=
  { path := "/items/\x7bid\x7d", method := HttpMethod.GET, store := some c3BadConfig }

/-- A valid compute-backed endpoint sharing the C3 witness run. -/
def c3GoodEndpoint : Endpoint :=
  { path := "/things", method := HttpMethod.GET, entry := some "lambda/getThings.ts" }

/-- The store configuration of the C7 witness. -/
def c7Config : StoreConfig :=
  StoreConfig.mk DynamoAction.getItemAct "T" "PK#1" (some "ITEM") none none 0 none none

/-- The C7 witness endpoint, referencing the unresolved type `Missing`. -/
def c7Endpoint : Endpoint :=
  { path := "/things/\x7bid\x7d", method := HttpMethod.GET,
    output := some "Missing", store := some c7Config }

/-- The endpoints of the C6 witness. -/
def c6Endpoints : List (String × Endpoint) :=
  [("getThing",
    { path := "/things/\x7bid\x7d", method := HttpMethod.GET, output := some "Thing" }),
   ("createThing",
    { path := "/things", method := HttpMethod.POST,
      input := some "CreateThingRequest", output := some "Thing" })]

/-- A client source whose class name does not match `<ProjectName>ApiClient`. -/
def c10MismatchedSource : ClientSource :=
  ClientSource.mk [] []
    [ClassDecl.mk "OtherApiClient" true
      [MethodDecl.mk "getThing" [("params", some "GetThingParams")] (some "Promise<Thing>")]]

/-- The fixture type of the C4 witness: five non-key properties and the two
primary-key attributes, in source order. -/
def c4FixtureProps : List TypeProp :=
  [TypeProp.mk "name" PropKind.stringKind, TypeProp.mk "count" PropKind.numberKind,
   TypeProp.mk "isActive" PropKind.booleanKind, TypeProp.mk "tags" PropKind.stringKind,
   TypeProp.mk "created" PropKind.stringKind, TypeProp.mk "pk" PropKind.stringKind,
   TypeProp.mk "sk" PropKind.stringKind]

/-! ## Helper lemmas -/

/-- A prefix check succeeds on any extension of the pattern. -/
theorem charsPrefixCheck_append_self (p r : List Char) :
    charsPrefixCheck p (p ++ r) = true := by
  induction p with
  | nil => rfl
  | cons a as ih => simp [charsPrefixCheck, ih]

/-- Substring occurrence is preserved by prepending text. -/
theorem hasSubstrAux_append_of_right (pat a b : List Char)
    (h : hasSubstrAux pat b = true) : hasSubstrAux pat (a ++ b) = true := by
  induction a with
  | nil => exact h
  | cons c cs ih => simp [hasSubstrAux, ih]

/-- JS `includes` is preserved by prepending text. -/
theorem jsIncludes_append_of_right (a b pat : String)
    (h : jsIncludes b pat = true) : jsIncludes (a ++ b) pat = true := by
  unfold jsIncludes at h ⊢
  rw [String.data_append]
  exact hasSubstrAux_append_of_right pat.data a.data b.data h

/-- String concatenation is associative. -/
theorem strAppend_assoc (a b c : String) : a ++ b ++ c = a ++ (b ++ c) := by
  apply String.ext
  simp [String.data_append, List.append_assoc]

/-- The index update never appends the export line twice. -/
theorem updateIndexForMock_idem (c : String) :
    updateIndexForMock (updateIndexForMock c) = updateIndexForMock c := by
  unfold updateIndexForMock
  by_cases h : jsIncludes c "apiClientMock" = true
  · simp [h]
  · simp only [h, if_false, Bool.false_eq_true]
    have hmem : jsIncludes (c ++ mockExportLine) "apiClientMock" = true :=
      jsIncludes_append_of_right c mockExportLine "apiClientMock" (by decide)
    simp [hmem]

/-! ## The claims -/

/-- C1: the claim states that a run whose declaration module yields zero
endpoint records by both tiers terminates with exit code 1 and produces no
artifacts.  The code does not: `importEndpoints` returns the truthy empty
object, the `if (!endpointsDef)` guard never fires, and the run writes the
client artifacts and exits 0. -/
theorem c1_zero_endpoints_run_not_aborted :
    importEndpoints emptyDeclModule = Except.ok (JsValue.jsObject []) ∧
    mainExitCode emptyDeclModule "demo" [] [] = 0 ∧
    generateApiClientRun emptyDeclModule "demo" [] [] =
      Except.ok ["apiClient.ts", "index.ts", "package.json", "README.md",
                 ".gitignore", "endpointEntries.json", "jest.setup.ts"] ∧
    ["apiClient.ts", "index.ts", "package.json", "README.md",
     ".gitignore", "endpointEntries.json", "jest.setup.ts"] ≠ ([] : List String) := by
  refine ⟨rfl, rfl, rfl, by decide⟩

/-- C2: for a store-backed GetItem endpoint with partition-key template
`SOME#<path-id>`, sort-key template `ITEM` and table name `t`, the generated
request template is exactly the direct key-lookup string
`\x7b"TableName":"t","Key":\x7b"pk":\x7b"S":"SOME#<path-id>"\x7d,"sk":\x7b"S":"ITEM"\x7d\x7d\x7d`. -/
theorem c2_getitem_request_template (t : String) :
    storeRequestTemplate
      (StoreConfig.mk DynamoAction.getItemAct t "SOME#<path-id>" (some "ITEM")
        none none 0 none none)
      (some "TestResponse") [TypeDecl.mk "TestResponse" []] =
    "\x7b\"TableName\":\"" ++ t ++
      "\",\"Key\":\x7b\"pk\":\x7b\"S\":\"SOME#<path-id>\"\x7d,\"sk\":\x7b\"S\":\"ITEM\"\x7d\x7d\x7d" := by
  have h : storeRequestTemplate
      (StoreConfig.mk DynamoAction.getItemAct t "SOME#<path-id>" (some "ITEM")
        none none 0 none none)
      (some "TestResponse") [TypeDecl.mk "TestResponse" []] =
      "\x7b\"TableName\":\"" ++ t ++ "\",\"Key\":\x7b\"pk\":\x7b\"S\":\"" ++
        "SOME#<path-id>" ++ "\"\x7d" ++ (",\"sk\":\x7b\"S\":\"" ++ "ITEM" ++ "\"\x7d") ++
        "\x7d\x7d" := rfl
  rw [h]
  simp only [strAppend_assoc]
  rfl

/-- C5 counterexample: the code performs the full-text scan of the first root
before probing the filename variants of the second root, so it resolves `Foo`
to `root1/Bar.ts` by text scan although the direct filename variant `Foo.ts`
exists in the second root — the two-phase order the claim states would return
`root2/Foo.ts`. -/
theorem c5_counterexample_scan_before_later_roots :
    findAndAddInterfaceFile "Foo" [c5FirstRoot, c5SecondRoot] = some "root1/Bar.ts" ∧
    resolveSpecTwoPhase "Foo" [c5FirstRoot, c5SecondRoot] = some "root2/Foo.ts" ∧
    findAndAddInterfaceFile "Foo" [c5FirstRoot, c5SecondRoot] ≠
      resolveSpecTwoPhase "Foo" [c5FirstRoot, c5SecondRoot] := by
  have h1 : findAndAddInterfaceFile "Foo" [c5FirstRoot, c5SecondRoot] =
      some "root1/Bar.ts" := rfl
  have h2 : resolveSpecTwoPhase "Foo" [c5FirstRoot, c5SecondRoot] =
      some "root2/Foo.ts" := rfl
  refine ⟨h1, h2, ?_⟩
  rw [h1, h2]
  decide

/-- C5 (amended): the resolver processes the search roots strictly in order
and, within each present root, tries the direct filename variants first and
performs the full-text scan of that root only when no variant matches there;
the first hit of this per-root two-phase probe wins. -/
theorem c5_amended_per_root_two_phase (t : String) (dirs : List Dir) :
    findAndAddInterfaceFile t dirs = perRootResolve t dirs := by
  induction dirs with
  | nil => rfl
  | cons d ds ih =>
    unfold findAndAddInterfaceFile perRootResolve dirResolve
    rw [List.findSome?_cons]
    by_cases hp : d.present
    · simp only [hp, Bool.not_true, Bool.false_eq_true, if_false, if_true]
      cases hv : findVariantLoop d.path d.files (fileVariants t) with
      | some p => rfl
      | none =>
        cases hs : scanFilesLoop t d.path d.files with
        | some p => rfl
        | none => simpa [perRootResolve] using ih
    · simp only [hp, Bool.not_false, if_true, if_false]
      simpa [perRootResolve, hp] using ih

/-- C9: running the mock generator twice over the same output directory is
idempotent — in particular the mock export line is appended to the index file
at most once, so the second run leaves the state unchanged. -/
theorem c9_mock_generation_idempotent (projectName : String) (src : ClientSource)
    (st : GenState) :
    generateApiClientMocks projectName src (generateApiClientMocks projectName src st) =
      generateApiClientMocks projectName src st := by
  unfold generateApiClientMocks
  by_cases hz : (parseApiClientFile (titleCase projectName) src).1.length = 0
  · simp [hz]
  · simp [hz, updateIndexForMock_idem]

/-- C10: when parsing the generated client source yields zero method members,
the mock generator returns without writing the mock source file or touching
the index file: the state is unchanged. -/
theorem c10_zero_methods_early_return (projectName : String) (src : ClientSource)
    (st : GenState) (h : (parseApiClientFile (titleCase projectName) src).1 = []) :
    generateApiClientMocks projectName src st = st := by
  unfold generateApiClientMocks
  simp [h]

/-- C3: a generation run containing a store-backed GetItem endpoint declared
with a non-empty index name fails with a fatal validation error, and the
template run produces no artifacts — the failure is not localized to the
offending endpoint. -/
theorem c3_getitem_index_fatal_no_artifacts (types : List TypeDecl)
    (eps : List (String × Endpoint))
    (h : ∃ p ∈ eps, ∃ cfg, p.2.store = some cfg ∧ invalidGetItemIndex cfg = true) :
    (∃ msg, generateVtlTemplates types eps = Except.error msg) ∧
    ∀ artifacts, generateVtlTemplates types eps ≠ Except.ok artifacts := by
  have key : ∃ msg, generateVtlTemplates types eps = Except.error msg := by
    induction eps with
    | nil => simp at h
    | cons hd rest ih =>
      obtain ⟨p, hp, cfg, hst, hinv⟩ := h
      rcases List.mem_cons.mp hp with heq | hmem
      · subst heq
        obtain ⟨n, e⟩ := p
        replace hst : e.store = some cfg := hst
        exact ⟨"InvalidStoreConfig: GetItem endpoint " ++ n ++ " declares an indexName",
          by simp [generateVtlTemplates, hst, hinv]⟩
      · obtain ⟨msg, hmsg⟩ := ih ⟨p, hmem, cfg, hst, hinv⟩
        obtain ⟨n, e⟩ := hd
        cases hse : e.store with
        | none =>
          simp only [generateVtlTemplates, hse]
          exact ⟨msg, hmsg⟩
        | some cfg2 =>
          by_cases hin : invalidGetItemIndex cfg2 = true
          · exact ⟨"InvalidStoreConfig: GetItem endpoint " ++ n ++ " declares an indexName",
              by simp [generateVtlTemplates, hse, hin]⟩
          · refine ⟨msg, ?_⟩
            simp [generateVtlTemplates, hse, hin, hmsg]
  refine ⟨key, ?_⟩
  obtain ⟨msg, hmsg⟩ := key
  intro artifacts
  simp [hmsg]

/-- C3 witness: a run with a valid endpoint and a GetItem endpoint declaring
`gsi1` fails as a whole and yields no artifacts. -/
theorem c3_witness :
    (∃ p ∈ [("getThings", c3GoodEndpoint), ("getItem", c3BadEndpoint)], ∃ cfg,
        p.2.store = some cfg ∧ invalidGetItemIndex cfg = true) ∧
    (∃ msg, generateVtlTemplates []
        [("getThings", c3GoodEndpoint), ("getItem", c3BadEndpoint)] = Except.error msg) ∧
    ∀ artifacts, generateVtlTemplates []
        [("getThings", c3GoodEndpoint), ("getItem", c3BadEndpoint)] ≠ Except.ok artifacts := by
  have hh : ∃ p ∈ [("getThings", c3GoodEndpoint), ("getItem", c3BadEndpoint)], ∃ cfg,
      p.2.store = some cfg ∧ invalidGetItemIndex cfg = true :=
    ⟨("getItem", c3BadEndpoint), by simp, c3BadConfig, rfl, rfl⟩
  exact ⟨hh, c3_getitem_index_fatal_no_artifacts []
    [("getThings", c3GoodEndpoint), ("getItem", c3BadEndpoint)] hh⟩

/-- C7: a store-backed endpoint whose referenced output type resolves in
neither phase does not abort the template run, and both the request and the
response template emitted for it are the generic fallback templates
verbatim. -/
theorem c7_unresolved_type_generic_fallbacks (n ty : String) (e : Endpoint)
    (cfg : StoreConfig) (types : List TypeDecl)
    (hstore : e.store = some cfg)
    (hvalid : invalidGetItemIndex cfg = false)
    (hreq : cfg.requestTemplateOverride = none)
    (hresp : cfg.responseTemplateOverride = none)
    (hout : e.output = some ty)
    (hunres : (types.find? fun d => d.name == ty) = none) :
    generateVtlTemplates types [(n, e)] =
      Except.ok [(n ++ "-request.vtl", genericRequestFallback),
                 (n ++ "-response.vtl", genericResponseFallback)] := by
  have hr : storeRequestTemplate cfg e.output types = genericRequestFallback := by
    unfold storeRequestTemplate typeResolves
    simp only [hreq, hout, hunres]
    simp
  have hp : storeResponseTemplate cfg e.output types = genericResponseFallback := by
    unfold storeResponseTemplate
    simp only [hresp, hout, hunres]
  simp [generateVtlTemplates, hstore, hvalid, hr, hp]

/-- C7 witness: with no resolved type declarations, the endpoint referencing
`Missing` yields exactly the two generic fallback templates and the run
succeeds. -/
theorem c7_witness :
    c7Endpoint.store = some c7Config ∧
    invalidGetItemIndex c7Config = false ∧
    c7Endpoint.output = some "Missing" ∧
    (([] : List TypeDecl).find? fun d => d.name == "Missing") = none ∧
    generateVtlTemplates [] [("getThing", c7Endpoint)] =
      Except.ok [("getThing-request.vtl", genericRequestFallback),
                 ("getThing-response.vtl", genericResponseFallback)] :=
  ⟨rfl, rfl, rfl, rfl,
    c7_unresolved_type_generic_fallbacks "getThing" "Missing" c7Endpoint c7Config []
      rfl rfl rfl rfl rfl rfl⟩

/-- C8: the parameter type generated for an endpoint is exported under the
title-cased endpoint name suffixed `Params` and contains exactly one required
`string | number` field per `\x7bparam\x7d` path segment in path order, then a
required `body` field exactly when the method is not GET and an input type
exists, or an optional `query` field exactly when the method is GET and an
input type exists. -/
theorem c8_params_type_shape (name : String) (e : Endpoint) :
    (genParamsType name e).typeName = titleCase name ++ "Params" ∧
    (genParamsType name e).fields =
      ((pathParamNames e.path).map fun p => ParamField.mk p "string | number" false) ++
      (if e.method ≠ HttpMethod.GET ∧ jsStrTruthyNe e.input "never" = true then
        [ParamField.mk "body" (jsTypeText e.input) false]
      else if e.method = HttpMethod.GET ∧ jsStrTruthyNe e.input "never" = true then
        [ParamField.mk "query" (jsTypeText e.input) true]
      else []) := by
  refine ⟨rfl, ?_⟩
  unfold genParamsType
  by_cases hm : e.method = HttpMethod.GET
  · by_cases hi : jsStrTruthyNe e.input "never" = true
    · simp [hm, hi]
    · simp [hm, hi]
  · by_cases hi : jsStrTruthyNe e.input "never" = true
    · simp [hm, hi]
    · simp [hm, hi]

/-- Stripping the `Promise` wrapper recovers the wrapped type text. -/
theorem stripPromise_wrap (s : String) :
    stripPromise ("Promise<" ++ s ++ ">") = s := by
  have hd : ("Promise<" ++ s ++ ">").data = ("Promise<".data ++ s.data) ++ ">".data := by
    simp [String.data_append]
  unfold stripPromise
  have hpre : charsPrefixCheck "Promise<".data ("Promise<" ++ s ++ ">").data = true := by
    rw [hd, List.append_assoc]
    exact charsPrefixCheck_append_self "Promise<".data (s.data ++ ">".data)
  have hsuf : charsSuffixCheck ">".data ("Promise<" ++ s ++ ">").data = true := by
    unfold charsSuffixCheck
    rw [hd]
    simp [charsPrefixCheck]
  rw [hpre, hsuf]
  simp only [Bool.and_self, if_true]
  apply String.ext
  rw [hd]
  have hlen : (("Promise<".data ++ s.data) ++ ">".data).length - 1 =
      ("Promise<".data ++ s.data).length := by
    simp
  rw [hlen, List.take_left]
  have h8 : "Promise<".data.length = 8 := by decide
  rw [List.drop_left' h8]

/-- A `filterMap` where every element maps to `some` is a `map`. -/
theorem filterMap_eq_map_of_forall {α β : Type} (f : α → Option β) (g : α → β)
    (l : List α) (h : ∀ x ∈ l, f x = some (g x)) : l.filterMap f = l.map g := by
  induction l with
  | nil => rfl
  | cons a as ih =>
    have ha := h a (List.mem_cons_self a as)
    simp [List.filterMap_cons, ha, ih fun x hx => h x (List.mem_cons_of_mem a hx)]

/-- C6: re-parsing the generated client source discovers exactly the method
members of the class `<titleCase projectName>ApiClient` — one per endpoint,
in declaration order, recording the method name, the first parameter's type
text `<TitleCaseName>Params`, and the return type text with the wrapping
`Promise<...>` stripped; in particular the mock's method set equals the set
of endpoint names of the input declaration. -/
theorem c6_mock_surface_matches_endpoints (projectName : String)
    (eps : List (String × Endpoint))
    (h : "constructor" ∉ eps.map fun pr => pr.1) :
    (parseApiClientFile (titleCase projectName) (generateClientSource eps projectName)).1 =
      eps.map fun pr =>
        EndpointMock.mk pr.1 (titleCase pr.1 ++ "Params") (clientOutputTypeText pr.2) := by
  unfold parseApiClientFile generateClientSource
  simp only [List.foldl_cons, List.foldl_nil, beq_self_eq_true, if_true, List.nil_append]
  rw [List.filterMap_map]
  apply filterMap_eq_map_of_forall
  intro pr hpr
  have hne : pr.1 ≠ "constructor" := by
    intro hc
    exact h (List.mem_map.mpr ⟨pr, hpr, hc⟩)
  simp only [Function.comp]
  unfold mockOfMethod
  have hb : (pr.1 == "constructor") = false := beq_eq_false_iff_ne.mpr hne
  simp [hb, stripPromise_wrap]

/-- C6 witness: for the project `demo` with two declared endpoints the parsed
mock surface is exactly those two endpoints with their parameter and
unwrapped return types. -/
theorem c6_witness :
    ("constructor" ∉ c6Endpoints.map fun pr => pr.1) ∧
    (parseApiClientFile (titleCase "demo") (generateClientSource c6Endpoints "demo")).1 =
      [EndpointMock.mk "getThing" "GetThingParams" "Thing",
       EndpointMock.mk "createThing" "CreateThingParams" "Thing"] := by
  have h : "constructor" ∉ c6Endpoints.map fun pr => pr.1 := by decide
  refine ⟨h, (c6_mock_surface_matches_endpoints "demo" c6Endpoints h).trans ?_⟩
  rfl

/-- C10 witness: for the project name `demo` the class `OtherApiClient` is not
discovered, the parse yields zero methods, and the generator leaves the state
untouched. -/
theorem c10_witness :
    (parseApiClientFile (titleCase "demo") c10MismatchedSource).1 = [] ∧
    generateApiClientMocks "demo" c10MismatchedSource (GenState.mk "idx" none) =
      GenState.mk "idx" none :=
  ⟨rfl, c10_zero_methods_early_return "demo" c10MismatchedSource (GenState.mk "idx" none) rfl⟩

/-- The key-clause emitter produces no conditional clauses. -/
theorem emitKeyClauses_condOf (ks : List TypeProp) :
    (emitKeyClauses ks).filterMap VtlClause.condOf = [] := by
  induction ks with
  | nil => rfl
  | cons k ks ihk => simp [emitKeyClauses, VtlClause.condOf, ihk]

/-- The conditional clauses of the emitted list are exactly the non-key
properties with their kinds, in order. -/
theorem emitClauses_condOf (ns ks : List TypeProp) :
    (emitClauses ns ks).filterMap VtlClause.condOf = ns.map fun p => (p.name, p.kind) := by
  induction ns with
  | nil => simpa [emitClauses] using emitKeyClauses_condOf ks
  | cons p ps ih => simp [emitClauses, VtlClause.condOf, ih]

/-- The key-clause emitter records exactly the key names in order. -/
theorem emitKeyClauses_keyNames (ks : List TypeProp) :
    (emitKeyClauses ks).filterMap VtlClause.keyNameOf = ks.map fun p => p.name := by
  induction ks with
  | nil => rfl
  | cons k ks ihk => simp [emitKeyClauses, VtlClause.keyNameOf, ihk]

/-- The unconditional key clauses of the emitted list are exactly the key
attributes, in declared order. -/
theorem emitClauses_keyNames (ns ks : List TypeProp) :
    (emitClauses ns ks).filterMap VtlClause.keyNameOf = ks.map fun p => p.name := by
  induction ns with
  | nil => simpa [emitClauses] using emitKeyClauses_keyNames ks
  | cons p ps ih => simp [emitClauses, VtlClause.keyNameOf, ih]

/-- Every emitted key clause is a key clause. -/
theorem emitKeyClauses_isKey (ks : List TypeProp) :
    (emitKeyClauses ks).map VtlClause.isKeyClause = List.replicate ks.length true := by
  induction ks with
  | nil => rfl
  | cons k ks ihk => simp [emitKeyClauses, VtlClause.isKeyClause, ihk, List.replicate_succ]

/-- All conditional clauses precede all key clauses. -/
theorem emitClauses_isKey (ns ks : List TypeProp) :
    (emitClauses ns ks).map VtlClause.isKeyClause =
      List.replicate ns.length false ++ List.replicate ks.length true := by
  induction ns with
  | nil => simpa [emitClauses] using emitKeyClauses_isKey ks
  | cons p ps ih => simp [emitClauses, VtlClause.isKeyClause, ih, List.replicate_succ]

/-- The key-clause emitter is empty exactly on no keys. -/
theorem emitKeyClauses_isEmpty (ks : List TypeProp) :
    (emitKeyClauses ks).isEmpty = ks.isEmpty := by
  cases ks <;> rfl

/-- The emitted list is empty exactly when both property lists are. -/
theorem emitClauses_isEmpty (ns ks : List TypeProp) :
    (emitClauses ns ks).isEmpty = (ns.isEmpty && ks.isEmpty) := by
  cases ns with
  | nil => simp [emitClauses, emitKeyClauses_isEmpty]
  | cons p ps => simp [emitClauses]

/-- `isCondFor` at a conditional clause. -/
theorem isCondFor_cond (f : String) (k : PropKind) (s : Bool) (nm : String) (kd : PropKind) :
    VtlClause.isCondFor (VtlClause.conditional f k s) nm kd = (f == nm && k == kd) := rfl

/-- `isCondFor` at a key clause. -/
theorem isCondFor_key (f : String) (s : Bool) (nm : String) (kd : PropKind) :
    VtlClause.isCondFor (VtlClause.keyUncond f s) nm kd = false := rfl

/-- `isKeyFor` at a conditional clause. -/
theorem isKeyFor_cond (f : String) (k : PropKind) (s : Bool) (nm : String) :
    VtlClause.isKeyFor (VtlClause.conditional f k s) nm = false := rfl

/-- `isKeyFor` at a key clause. -/
theorem isKeyFor_key (f : String) (s : Bool) (nm : String) :
    VtlClause.isKeyFor (VtlClause.keyUncond f s) nm = (f == nm) := rfl

/-- Key clauses never match a conditional-clause predicate. -/
theorem emitKeyClauses_count_cond (ks : List TypeProp) (nm : String) (kd : PropKind) :
    ((emitKeyClauses ks).filter fun c => VtlClause.isCondFor c nm kd).length = 0 := by
  induction ks with
  | nil => rfl
  | cons k ks ihk => simpa [emitKeyClauses, List.filter_cons, isCondFor_key] using ihk

/-- Counting conditional clauses for a name and kind counts the matching
non-key properties. -/
theorem emitClauses_count_cond (ns ks : List TypeProp) (nm : String) (kd : PropKind) :
    ((emitClauses ns ks).filter fun c => VtlClause.isCondFor c nm kd).length =
      (ns.filter fun p => p.name == nm && p.kind == kd).length := by
  induction ns with
  | nil => simpa [emitClauses] using emitKeyClauses_count_cond ks nm kd
  | cons p ps ih =>
    by_cases hc : (p.name == nm && p.kind == kd) = true
    · simp [emitClauses, List.filter_cons, isCondFor_cond, hc, ih]
    · simp [emitClauses, List.filter_cons, isCondFor_cond, hc, ih]

/-- Counting key clauses for a name over the key-clause emitter counts the
matching key attributes. -/
theorem emitKeyClauses_count_key (ks : List TypeProp) (nm : String) :
    ((emitKeyClauses ks).filter fun c => VtlClause.isKeyFor c nm).length =
      (ks.filter fun p => p.name == nm).length := by
  induction ks with
  | nil => rfl
  | cons k ks ihk =>
    by_cases hc : (k.name == nm) = true
    · simp [emitKeyClauses, List.filter_cons, isKeyFor_key, hc, ihk]
    · simp [emitKeyClauses, List.filter_cons, isKeyFor_key, hc, ihk]

/-- Counting key clauses for a name counts the matching key attributes. -/
theorem emitClauses_count_key (ns ks : List TypeProp) (nm : String) :
    ((emitClauses ns ks).filter fun c => VtlClause.isKeyFor c nm).length =
      (ks.filter fun p => p.name == nm).length := by
  induction ns with
  | nil => simpa [emitClauses] using emitKeyClauses_count_key ks nm
  | cons p ps ih => simpa [emitClauses, List.filter_cons, isKeyFor_cond] using ih

/-- Extending a separator-disciplined list by a clause whose flag records
whether the list is non-empty preserves the discipline. -/
theorem sepFlagsOk_cons (c : VtlClause) (l : List VtlClause)
    (hc : c.sepOf = !l.isEmpty) (hl : sepFlagsOk l) : sepFlagsOk (c :: l) := by
  intro i h
  cases i with
  | zero =>
    simp only [List.get, List.length_cons]
    rw [hc]
    cases l <;> simp
  | succ j =>
    have hj : j < l.length := by simpa using h
    have := hl j hj
    simp only [List.get, List.length_cons]
    rw [this]
    omega

/-- The key-clause emitter obeys the separator discipline. -/
theorem emitKeyClauses_sep (ks : List TypeProp) : sepFlagsOk (emitKeyClauses ks) := by
  induction ks with
  | nil => intro i h; simp [emitKeyClauses] at h
  | cons k ks ihk =>
    refine sepFlagsOk_cons _ _ ?_ ihk
    simp [VtlClause.sepOf, emitKeyClauses_isEmpty]

/-- The emitted clause list obeys the separator discipline: a separator
exactly when a later field follows, none on the last clause. -/
theorem emitClauses_sep (ns ks : List TypeProp) : sepFlagsOk (emitClauses ns ks) := by
  induction ns with
  | nil => simpa [emitClauses] using emitKeyClauses_sep ks
  | cons p ps ih =>
    refine sepFlagsOk_cons _ _ ?_ ih
    simp [VtlClause.sepOf, emitClauses_isEmpty, Bool.not_and]

/-- In a list of properties with pairwise distinct names, a predicate that
holds of a member and forces its name filters to exactly one element. -/
theorem filter_length_one_of_name_nodup (l : List TypeProp) (p : TypeProp)
    (f : TypeProp → Bool) (hnd : (l.map TypeProp.name).Nodup) (hmem : p ∈ l)
    (hfp : f p = true) (hname : ∀ q, f q = true → q.name = p.name) :
    (l.filter f).length = 1 := by
  induction l with
  | nil => simp at hmem
  | cons a as ih =>
    rw [List.map_cons, List.nodup_cons] at hnd
    obtain ⟨hna, hnd2⟩ := hnd
    rcases List.mem_cons.mp hmem with rfl | hmem2
    · have hnil : as.filter f = [] := by
        rw [List.filter_eq_nil_iff]
        intro q hq hfq
        apply hna
        have hp : p.name ∈ as.map TypeProp.name := List.mem_map.mpr ⟨q, hq, hname q hfq⟩
        exact hp
      simp [List.filter_cons, hfp, hnil]
    · have hfa : f a = false := by
        cases hfa2 : f a with
        | false => rfl
        | true =>
          exfalso
          apply hna
          rw [hname a hfa2]
          exact List.mem_map.mpr ⟨p, hmem2, rfl⟩
      rw [List.filter_cons]
      simp only [hfa, Bool.false_eq_true, if_false]
      exact ih hnd2 hmem2

/-- C4: for a resolved output type with pairwise distinct property names, the
response-template clause list contains exactly one conditional clause per
non-key property matching its classified kind, in source order; exactly one
unconditional clause per key attribute (exact `pk`/`sk` or case-sensitive
`gsi` prefix), emitted immediately after the conditional clauses in declared
order; and a separator exactly when a later field follows (no trailing
separator). -/
theorem c4_response_clause_structure (props : List TypeProp)
    (hnd : (props.map TypeProp.name).Nodup) :
    ((generateResponseClauses props).filterMap VtlClause.condOf =
        (props.filter fun p => !isKeyAttr p.name).map fun p => (p.name, p.kind)) ∧
    ((generateResponseClauses props).filterMap VtlClause.keyNameOf =
        (props.filter fun p => isKeyAttr p.name).map fun p => p.name) ∧
    ((generateResponseClauses props).map VtlClause.isKeyClause =
        List.replicate ((props.filter fun p => !isKeyAttr p.name).length) false ++
        List.replicate ((props.filter fun p => isKeyAttr p.name).length) true) ∧
    (∀ p ∈ props, isKeyAttr p.name = false →
        ((generateResponseClauses props).filter fun c =>
            VtlClause.isCondFor c p.name p.kind).length = 1) ∧
    (∀ p ∈ props, isKeyAttr p.name = true →
        ((generateResponseClauses props).filter fun c =>
            VtlClause.isKeyFor c p.name).length = 1) ∧
    sepFlagsOk (generateResponseClauses props) := by
  refine ⟨emitClauses_condOf _ _, emitClauses_keyNames _ _, emitClauses_isKey _ _, ?_, ?_,
    emitClauses_sep _ _⟩
  · intro p hp hkey
    rw [show generateResponseClauses props =
        emitClauses (props.filter fun p => !isKeyAttr p.name)
          (props.filter fun p => isKeyAttr p.name) from rfl]
    rw [emitClauses_count_cond]
    have hsub : List.Sublist ((props.filter fun p => !isKeyAttr p.name).map TypeProp.name)
        (props.map TypeProp.name) := (List.filter_sublist props).map TypeProp.name
    refine filter_length_one_of_name_nodup _ p _ (hnd.sublist hsub) ?_ (by simp) ?_
    · exact List.mem_filter.mpr ⟨hp, by simp [hkey]⟩
    · intro q hq
      simp only [Bool.and_eq_true, beq_iff_eq] at hq
      exact hq.1
  · intro p hp hkey
    rw [show generateResponseClauses props =
        emitClauses (props.filter fun p => !isKeyAttr p.name)
          (props.filter fun p => isKeyAttr p.name) from rfl]
    rw [emitClauses_count_key]
    have hsub : List.Sublist ((props.filter fun p => isKeyAttr p.name).map TypeProp.name)
        (props.map TypeProp.name) := (List.filter_sublist props).map TypeProp.name
    refine filter_length_one_of_name_nodup _ p _ (hnd.sublist hsub) ?_ (by simp) ?_
    · exact List.mem_filter.mpr ⟨hp, hkey⟩
    · intro q hq
      simpa using hq

/-- C4 witness: on the fixture type the conditional clauses are exactly the
five non-key properties with their kinds in source order, and the
unconditional key clauses are exactly `pk` then `sk`. -/
theorem c4_witness :
    (c4FixtureProps.map TypeProp.name).Nodup ∧
    (generateResponseClauses c4FixtureProps).filterMap VtlClause.condOf =
      [("name", PropKind.stringKind), ("count", PropKind.numberKind),
       ("isActive", PropKind.booleanKind), ("tags", PropKind.stringKind),
       ("created", PropKind.stringKind)] ∧
    (generateResponseClauses c4FixtureProps).filterMap VtlClause.keyNameOf = ["pk", "sk"] := by
  have hnd : (c4FixtureProps.map TypeProp.name).Nodup := by decide
  have h := c4_response_clause_structure c4FixtureProps hnd
  exact ⟨hnd, h.1.trans (by rfl), h.2.1.trans (by rfl)⟩
